import Mathlib

/-!
Verification of the online-presence tracker in src/src/main.rs.

The tracker is a map from user ids to the instant the user was first seen
online (Rust: HashMap<UserId, Instant> stored under the OnlineTracker
TypeMap key).  We embed it as an association list of natural numbers:
user ids and instants are opaque, so Nat suffices.  Map insertion follows
HashMap::insert (replace any existing binding), removal follows
HashMap::remove (delete the binding if present).
-/

namespace InterludesBot

/-- User ids (serenity UserId) are opaque; modelled as Nat. -/
abbrev UserId := Nat

/-- Instants (std::time::Instant) are opaque monotone timestamps; modelled as Nat. -/
abbrev Instant := Nat

/-- Guild ids are opaque; modelled as Nat. -/
abbrev GuildId := Nat

/-- The tracker map HashMap<UserId, Instant>, as an association list. -/
abbrev Tracker := List (UserId × Instant)

/-- HashMap::contains_key. -/
def containsKey (t : Tracker) (id : UserId) : Bool :=
  t.any (fun p => p.1 == id)

/-- HashMap::remove (drops the binding for id, if any). -/
def trackerRemove (t : Tracker) (id : UserId) : Tracker :=
  t.filter (fun p => p.1 != id)

/-- HashMap::insert (replaces any existing binding for id). -/
def trackerInsert (t : Tracker) (id : UserId) (v : Instant) : Tracker :=
  (id, v) :: trackerRemove t id

/-- HashMap lookup (value stored under id, if any). -/
def trackerGet (t : Tracker) (id : UserId) : Option Instant :=
  (t.find? (fun p => p.1 == id)).map (fun p => p.2)

/-- serenity::model::prelude::OnlineStatus.  The Rust enum is non_exhaustive;
the Other constructor stands for any unrecognized or future status value. -/
inductive OnlineStatus where
  | DoNotDisturb
  | Idle
  | Invisible
  | Offline
  | Online
  | Other (code : Nat)
deriving DecidableEq, Repr

/-- The status classifier appearing (twice, verbatim) in main.rs lines 55-58
and 80-83: DoNotDisturb | Idle | Invisible | Online => true, _ => false. -/
def classify : OnlineStatus → Bool
  | .DoNotDisturb => true
  | .Idle => true
  | .Invisible => true
  | .Online => true
  | _ => false

/-- The data of a PresenceUpdateEvent used by the handler: presence.user_id
and presence.status. -/
structure PresenceUpdateEvent where
  user_id : UserId
  status : OnlineStatus
deriving DecidableEq, Repr

/-- Handler::presence_update (main.rs lines 48-65): classify the new status;
if online and the id is untracked, insert it with the current instant; if
offline, remove it.  The current instant (Instant::now()) is the `now`
argument. -/
def presence_update (t : Tracker) (e : PresenceUpdateEvent) (now : Instant) : Tracker :=
  let online := classify e.status
  let t1 := if online && !(containsKey t e.user_id) then trackerInsert t e.user_id now else t
  if !online then trackerRemove t1 e.user_id else t1

/-- The per-guild data used by Handler::ready: the guild presences map,
as (user id, status) pairs. -/
structure GuildData where
  presences : List (UserId × OnlineStatus)

/-- The map built by Handler::ready from a guild presence listing
(main.rs lines 75-90): filter_map keeping (id, now) for the entries whose
status classifies online. -/
def snapshotMap (presences : List (UserId × OnlineStatus)) (now : Instant) : Tracker :=
  presences.filterMap (fun p => if classify p.2 then some (p.1, now) else none)

/-- Handler::ready (main.rs lines 66-92).  The capture time now is taken
once (line 68) before the guild is resolved.  ready.guilds[0] panics when
the guild list is empty (Vec indexing), modelled as an error; the cache
lookup to_guild_cached is the `cache` argument; when it misses, the if-let
has no else branch and the tracker is left as it was. -/
def ready (t : Tracker) (guilds : List GuildId) (cache : GuildId → Option GuildData)
    (now : Instant) : Except String Tracker :=
  match guilds with
  | [] => Except.error "index out of bounds: the len is 0 but the index is 0"
  | g :: _ =>
    match cache g with
    | some guild => Except.ok (snapshotMap guild.presences now)
    | none => Except.ok t

/-- The duration formatting of whosonline (main.rs lines 208-218):
seconds = s % 60, minutes = (s / 60) % 60, hours = (s / 60) / 60,
rendered as hours then "h ", minutes then "m ", seconds then "s". -/
def formatDuration (secs : Nat) : String :=
  let seconds := secs % 60
  let minutes := (secs / 60) % 60
  let hours := (secs / 60) / 60
  toString hours ++ "h " ++ toString minutes ++ "m " ++ toString seconds ++ "s"

/-- The loop of whosonline (main.rs lines 202-219): for each tracked
(userid, instant), require a guild id (ok_or, line 205), resolve the member
via the directory lookup (line 206, may fail), and append the formatted
line to the reply.  Errors propagate (the Rust ? operator) and abort the
whole command before the reply is sent. -/
def whosonlineGo (gid? : Option GuildId) (member : GuildId → UserId → Except String String)
    (now : Instant) : Tracker → String → Except String String
  | [], reply => Except.ok reply
  | (userid, instant) :: rest, reply =>
    match gid? with
    | none => Except.error "Must be used in guild"
    | some gid =>
      match member gid userid with
      | Except.error e => Except.error e
      | Except.ok name =>
        whosonlineGo gid? member now rest
          (reply ++ name ++ " has been connected for " ++ formatDuration (now - instant) ++ "\n")

/-- whosonline (main.rs lines 196-222): builds the reply starting from the
header line and sends it only after the loop completes.  Except.ok r means
the command succeeded and the reply text r was sent; Except.error means the
command aborted and no reply text was sent. -/
def whosonline (gid? : Option GuildId) (member : GuildId → UserId → Except String String)
    (now : Instant) (tracker : Tracker) : Except String String :=
  whosonlineGo gid? member now tracker "the following users are online:\n"

/-- A sequence of presence events, each with the Instant::now() observed
when it was handled, applied in delivery order. -/
def applyEvents (t : Tracker) (events : List (PresenceUpdateEvent × Instant)) : Tracker :=
  events.foldl (fun acc e => presence_update acc e.1 e.2) t

/-- The events of a sequence that concern a given id, in order. -/
def eventsFor (id : UserId) (events : List (PresenceUpdateEvent × Instant)) :
    List PresenceUpdateEvent :=
  (events.map Prod.fst).filter (fun e => e.user_id == id)

/-- Whether the most recent event for id in the sequence classifies online
(false when the sequence has no event for id). -/
def lastOnline (id : UserId) (events : List (PresenceUpdateEvent × Instant)) : Bool :=
  (((eventsFor id events).getLast?).map (fun e => classify e.status)).getD false

/-- Whether no event for id in the sequence classifies offline. -/
def neverOffline (id : UserId) (events : List (PresenceUpdateEvent × Instant)) : Bool :=
  (eventsFor id events).all (fun e => classify e.status)

/-- Abstract effects of one whosonline invocation, in program order.  The
write lock on ctx.data is taken at the top of the function (main.rs line
197) and released when the guard is dropped at function exit, including the
early exits of the ? operator; each member resolution (line 206) and the
reply send (line 220) are awaited network calls. -/
inductive Action where
  | acquireLock
  | releaseLock
  | lookupCall (id : UserId)
  | replyCall
deriving DecidableEq, Repr

/-- Whether an action is an awaited network call. -/
def Action.isNetworkCall : Action → Bool
  | Action.lookupCall _ => true
  | Action.replyCall => true
  | _ => false

/-- The effect trace of the whosonline loop (main.rs lines 202-220): per
tracked entry, the guild-id check, then the member lookup; a missing guild
id or a failed lookup exits the function, dropping the lock; after the loop
the reply is sent and then the lock is dropped. -/
def whosonlineLoopTrace (gid? : Option GuildId)
    (member : GuildId → UserId → Except String String) : Tracker → List Action
  | [] => [Action.replyCall, Action.releaseLock]
  | (userid, _) :: rest =>
    match gid? with
    | none => [Action.releaseLock]
    | some gid =>
      match member gid userid with
      | Except.error _ => [Action.lookupCall userid, Action.releaseLock]
      | Except.ok _ => Action.lookupCall userid :: whosonlineLoopTrace gid? member rest

/-- The effect trace of one whosonline invocation. -/
def whosonlineTrace (gid? : Option GuildId)
    (member : GuildId → UserId → Except String String) (t : Tracker) : List Action :=
  Action.acquireLock :: whosonlineLoopTrace gid? member t

/-- Whether some network call occurs while the lock is held, scanning the
trace with the current lock state. -/
def netWhileLockedFrom (locked : Bool) : List Action → Bool
  | [] => false
  | a :: rest =>
    match a with
    | Action.acquireLock => netWhileLockedFrom true rest
    | Action.releaseLock => netWhileLockedFrom false rest
    | _ => (locked && a.isNetworkCall) || netWhileLockedFrom locked rest

/-- Whether some network call of the trace occurs while the lock is held. -/
def netWhileLocked (tr : List Action) : Bool :=
  netWhileLockedFrom false tr

/-- Whether some network call occurs while the lock is not held. -/
def netWhileUnlockedFrom (locked : Bool) : List Action → Bool
  | [] => false
  | a :: rest =>
    match a with
    | Action.acquireLock => netWhileUnlockedFrom true rest
    | Action.releaseLock => netWhileUnlockedFrom false rest
    | _ => ((!locked) && a.isNetworkCall) || netWhileUnlockedFrom locked rest

/-- Whether some network call of the trace occurs outside the lock. -/
def netWhileUnlocked (tr : List Action) : Bool :=
  netWhileUnlockedFrom false tr

/-- A concrete guild listing used to instantiate the snapshot theorems. -/
def sampleGuild : GuildData :=
  GuildData.mk [(1, OnlineStatus.Online), (2, OnlineStatus.Offline)]

/-- A concrete cache that resolves every guild id to sampleGuild. -/
def sampleCache : GuildId → Option GuildData := fun _ => some sampleGuild

lemma containsKey_trackerRemove (t : Tracker) (id x : UserId) :
    containsKey (trackerRemove t id) x = ((!(x == id)) && containsKey t x) := by
  induction t with
  | nil => simp [containsKey, trackerRemove]
  | cons p rest ih =>
    simp only [containsKey, trackerRemove, List.filter_cons] at ih ⊢
    cases hpi : p.1 == id <;> cases hpx : p.1 == x <;> cases hxi : x == id <;>
      simp_all [bne, beq_iff_eq, beq_eq_false_iff_ne]

lemma containsKey_trackerInsert (t : Tracker) (id x : UserId) (v : Instant) :
    containsKey (trackerInsert t id v) x = ((x == id) || containsKey t x) := by
  have h := containsKey_trackerRemove t id x
  simp only [trackerInsert, containsKey, List.any_cons] at *
  cases hxi : x == id <;> cases hix : id == x <;>
    simp_all [beq_iff_eq, beq_eq_false_iff_ne]

lemma containsKey_true_of_trackerGet (t : Tracker) (id : UserId) (v : Instant)
    (h : trackerGet t id = some v) : containsKey t id = true := by
  unfold trackerGet at h
  rcases Option.map_eq_some'.mp h with ⟨p, hfind, hv⟩
  have hmem := List.mem_of_find?_eq_some hfind
  have hp := List.find?_some hfind
  exact List.any_eq_true.mpr ⟨p, hmem, hp⟩

/-- Key-set behaviour of a single presence event: the updated id is tracked
exactly when the event classifies online, every other id is untouched. -/
lemma containsKey_presence_update (t : Tracker) (e : PresenceUpdateEvent)
    (now : Instant) (x : UserId) :
    containsKey (presence_update t e now) x =
      if x = e.user_id then classify e.status else containsKey t x := by
  cases hon : classify e.status with
  | false =>
    simp only [presence_update, hon]
    rw [show (if (false && !containsKey t e.user_id) = true
        then trackerInsert t e.user_id now else t) = t by simp]
    rw [show (if (!false) = true then trackerRemove t e.user_id else t)
        = trackerRemove t e.user_id by simp]
    rw [containsKey_trackerRemove]
    by_cases hx : x = e.user_id <;> simp [hx]
  | true =>
    cases hck : containsKey t e.user_id with
    | false =>
      simp [presence_update, hon, hck]
      rw [containsKey_trackerInsert]
      by_cases hx : x = e.user_id <;> simp [hx]
    | true =>
      simp [presence_update, hon, hck]
      by_cases hx : x = e.user_id <;> simp [hx, hck]

lemma eventsFor_cons (id : UserId) (e : PresenceUpdateEvent × Instant)
    (rest : List (PresenceUpdateEvent × Instant)) :
    eventsFor id (e :: rest) =
      if e.1.user_id = id then e.1 :: eventsFor id rest else eventsFor id rest := by
  by_cases h : e.1.user_id = id <;> simp [eventsFor, List.filter_cons, h]

lemma lastOnline_of_neverOffline (id : UserId)
    (events : List (PresenceUpdateEvent × Instant))
    (hne : eventsFor id events ≠ []) (hall : neverOffline id events = true) :
    lastOnline id events = true := by
  unfold lastOnline
  unfold neverOffline at hall
  rw [List.getLast?_eq_getLast_of_ne_nil hne]
  have hmem : (eventsFor id events).getLast hne ∈ eventsFor id events :=
    List.getLast_mem hne
  have hcl := List.all_eq_true.mp hall _ hmem
  simp only [Option.map_some', Option.getD_some]
  exact hcl

lemma lastOnline_nil_eventsFor (id : UserId)
    (events : List (PresenceUpdateEvent × Instant)) (h : eventsFor id events = []) :
    lastOnline id events = false := by
  simp [lastOnline, h]

lemma neverOffline_nil_eventsFor (id : UserId)
    (events : List (PresenceUpdateEvent × Instant)) (h : eventsFor id events = []) :
    neverOffline id events = true := by
  simp [neverOffline, h]

/-- Membership after a whole event sequence: id is tracked exactly when its
most recent event was online, or it started tracked and never went offline. -/
lemma containsKey_applyEvents (events : List (PresenceUpdateEvent × Instant)) :
    ∀ (t0 : Tracker) (id : UserId),
      containsKey (applyEvents t0 events) id
        = (lastOnline id events
            || (containsKey t0 id && neverOffline id events)) := by
  induction events with
  | nil =>
    intro t0 id
    simp [applyEvents, lastOnline, neverOffline, eventsFor]
  | cons e rest ih =>
    intro t0 id
    have hstep : applyEvents t0 (e :: rest)
        = applyEvents (presence_update t0 e.1 e.2) rest := rfl
    rw [hstep, ih, containsKey_presence_update]
    by_cases hid : e.1.user_id = id
    · have hef : eventsFor id (e :: rest) = e.1 :: eventsFor id rest := by
        rw [eventsFor_cons, if_pos hid]
      rw [if_pos hid.symm]
      by_cases hrest : eventsFor id rest = []
      · have h1 := lastOnline_nil_eventsFor id rest hrest
        have h2 := neverOffline_nil_eventsFor id rest hrest
        have h3 : lastOnline id (e :: rest) = classify e.1.status := by
          simp [lastOnline, hef, hrest]
        have h4 : neverOffline id (e :: rest)
            = (classify e.1.status && neverOffline id rest) := by
          simp [neverOffline, hef]
        rw [h1, h2, h3, h4, h2]
        cases classify e.1.status <;> cases containsKey t0 id <;> simp
      · have h3 : lastOnline id (e :: rest) = lastOnline id rest := by
          rcases hL : eventsFor id rest with _ | ⟨b, L⟩
        -- impossible: hrest
          · exact absurd hL hrest
          · simp only [lastOnline, hef, hL, List.getLast?_cons_cons]
        have h4 : neverOffline id (e :: rest)
            = (classify e.1.status && neverOffline id rest) := by
          simp [neverOffline, hef]
        rw [h3, h4]
        cases hcn : (classify e.1.status && neverOffline id rest) with
        | false => simp
        | true =>
          have hno : neverOffline id rest = true := by
            have h := hcn
            rw [Bool.and_eq_true] at h
            exact h.2
          have hlo := lastOnline_of_neverOffline id rest hrest hno
          simp [hlo]
    · have hef : eventsFor id (e :: rest) = eventsFor id rest := by
        rw [eventsFor_cons, if_neg hid]
      rw [if_neg (fun h => hid h.symm)]
      simp [lastOnline, neverOffline, hef]

/-- C1: after a snapshot and any sequence of presence events, an id is a key
of the tracker exactly when its most recent event classified online, or it
was installed by the snapshot and never received an offline-classified event
afterwards; and per event, an online status for an untracked id inserts it,
an offline status removes it, and any other combination leaves the key set
unchanged (self-transitions are no-ops). -/
theorem tracker_membership_after_events (presences : List (UserId × OnlineStatus))
    (now0 : Instant) (events : List (PresenceUpdateEvent × Instant)) (id : UserId) :
    (containsKey (applyEvents (snapshotMap presences now0) events) id
      = (lastOnline id events
          || (containsKey (snapshotMap presences now0) id && neverOffline id events)))
    ∧ (∀ (t : Tracker) (e : PresenceUpdateEvent) (now : Instant) (x : UserId),
        containsKey (presence_update t e now) x
          = if x = e.user_id then classify e.status else containsKey t x) :=
  ⟨containsKey_applyEvents events (snapshotMap presences now0) id,
    containsKey_presence_update⟩

/-- C2: the classifier is total and pure, returning online exactly for
DoNotDisturb (busy), Idle, Invisible and Online (active), and offline for
everything else, including explicit Offline and every unrecognized or
future status value. -/
theorem classify_total_partition :
    (∀ s : OnlineStatus, classify s = true ↔
      (s = OnlineStatus.DoNotDisturb ∨ s = OnlineStatus.Idle
        ∨ s = OnlineStatus.Invisible ∨ s = OnlineStatus.Online))
    ∧ classify OnlineStatus.Offline = false
    ∧ (∀ code : Nat, classify (OnlineStatus.Other code) = false) := by
  refine ⟨fun s => ?_, rfl, fun code => rfl⟩
  cases s <;> simp [classify]

/-- C3: an online-classified event for an id already tracked with
timestamp ts leaves the whole map unchanged, keeps the stored timestamp ts,
and applying the same online event twice equals applying it once. -/
theorem online_update_when_tracked_is_noop (t : Tracker) (e : PresenceUpdateEvent)
    (now now' ts : Instant)
    (hts : trackerGet t e.user_id = some ts) (hon : classify e.status = true) :
    presence_update t e now = t
    ∧ trackerGet (presence_update t e now) e.user_id = some ts
    ∧ presence_update (presence_update t e now) e now' = presence_update t e now := by
  have hck : containsKey t e.user_id = true :=
    containsKey_true_of_trackerGet t e.user_id ts hts
  have heq : presence_update t e now = t := by
    simp [presence_update, hon, hck]
  have heq' : presence_update t e now' = t := by
    simp [presence_update, hon, hck]
  refine ⟨heq, by rw [heq]; exact hts, by rw [heq, heq']⟩

/-- Witness for the idempotence theorem at a concrete tracked entity. -/
theorem online_update_when_tracked_is_noop_witness :
    trackerGet [(3, 7)] 3 = some 7
    ∧ classify OnlineStatus.Online = true
    ∧ (presence_update [(3, 7)] ⟨3, OnlineStatus.Online⟩ 99 = [(3, 7)]
      ∧ trackerGet (presence_update [(3, 7)] ⟨3, OnlineStatus.Online⟩ 99) 3 = some 7
      ∧ presence_update (presence_update [(3, 7)] ⟨3, OnlineStatus.Online⟩ 99)
          ⟨3, OnlineStatus.Online⟩ 100
        = presence_update [(3, 7)] ⟨3, OnlineStatus.Online⟩ 99) :=
  ⟨by decide, by decide,
    online_update_when_tracked_is_noop [(3, 7)] ⟨3, OnlineStatus.Online⟩ 99 100 7
      (by decide) (by decide)⟩

lemma containsKey_snapshotMap (presences : List (UserId × OnlineStatus))
    (now : Instant) (id : UserId) :
    containsKey (snapshotMap presences now) id
      = presences.any (fun p => p.1 == id && classify p.2) := by
  induction presences with
  | nil => simp [snapshotMap, containsKey]
  | cons p rest ih =>
    cases hc : classify p.2 <;>
      simp_all [snapshotMap, containsKey, List.filterMap_cons, hc]

lemma snd_mem_snapshotMap (presences : List (UserId × OnlineStatus))
    (now : Instant) (pr : UserId × Instant) (h : pr ∈ snapshotMap presences now) :
    pr.2 = now := by
  unfold snapshotMap at h
  rcases List.mem_filterMap.mp h with ⟨a, ha, hfa⟩
  by_cases hc : classify a.2 = true
  · rw [if_pos hc] at hfa
    cases hfa
    rfl
  · rw [if_neg hc] at hfa
    cases hfa

/-- C4: when the first guild resolves from the cache, ready installs exactly
the map with a key for each online-classified listing entry, every value
being the single capture time now, and the prior tracker is discarded: the
result is the same whatever the prior state was. -/
theorem snapshot_installs_online_map (t : Tracker) (g : GuildId) (gs : List GuildId)
    (cache : GuildId → Option GuildData) (guild : GuildData) (now : Instant)
    (hc : cache g = some guild) :
    ready t (g :: gs) cache now = Except.ok (snapshotMap guild.presences now)
    ∧ (∀ id, containsKey (snapshotMap guild.presences now) id
        = guild.presences.any (fun p => p.1 == id && classify p.2))
    ∧ (∀ pr ∈ snapshotMap guild.presences now, pr.2 = now)
    ∧ (∀ t2 : Tracker, ready t2 (g :: gs) cache now = ready t (g :: gs) cache now) := by
  have hr : ∀ t2 : Tracker,
      ready t2 (g :: gs) cache now = Except.ok (snapshotMap guild.presences now) := by
    intro t2
    simp [ready, hc]
  exact ⟨hr t, fun id => containsKey_snapshotMap guild.presences now id,
    fun pr hpr => snd_mem_snapshotMap guild.presences now pr hpr,
    fun t2 => by rw [hr t2, hr t]⟩

/-- Witness for the snapshot-installation theorem at a concrete guild. -/
theorem snapshot_installs_online_map_witness :
    sampleCache 0 = some sampleGuild
    ∧ (ready [(9, 9)] [0] sampleCache 5 = Except.ok (snapshotMap sampleGuild.presences 5)
      ∧ (∀ id, containsKey (snapshotMap sampleGuild.presences 5) id
          = sampleGuild.presences.any (fun p => p.1 == id && classify p.2))
      ∧ (∀ pr ∈ snapshotMap sampleGuild.presences 5, pr.2 = 5)
      ∧ (∀ t2 : Tracker, ready t2 [0] sampleCache 5 = ready [(9, 9)] [0] sampleCache 5)) :=
  ⟨rfl, snapshot_installs_online_map [(9, 9)] 0 [] sampleCache sampleGuild 5 rfl⟩

/-- C5 (code bug): when the connection callback delivers an empty guild
list, Handler::ready evaluates ready.guilds[0], an out-of-bounds Vec index,
and the task panics instead of proceeding with an empty store. -/
theorem ready_empty_guilds_panics (t : Tracker) (cache : GuildId → Option GuildData)
    (now : Instant) :
    ready t [] cache now
      = Except.error "index out of bounds: the len is 0 but the index is 0" := rfl

/-- C9: the capture time is read once, before the presence listing is
iterated, so all entries installed by one ready run carry the same
timestamp, and their elapsed durations agree at every later query instant. -/
theorem snapshot_single_capture_time (t t' : Tracker) (g : GuildId) (gs : List GuildId)
    (cache : GuildId → Option GuildData) (guild : GuildData) (now : Instant)
    (hc : cache g = some guild)
    (hr : ready t (g :: gs) cache now = Except.ok t') :
    (∀ pr ∈ t', pr.2 = now)
    ∧ (∀ pr ∈ t', ∀ qr ∈ t', pr.2 = qr.2)
    ∧ (∀ q : Instant, ∀ pr ∈ t', ∀ qr ∈ t', q - pr.2 = q - qr.2) := by
  have ht' : t' = snapshotMap guild.presences now := by
    simp [ready, hc] at hr
    exact hr.symm
  subst ht'
  refine ⟨fun pr hpr => snd_mem_snapshotMap guild.presences now pr hpr, ?_, ?_⟩
  · intro pr hpr qr hqr
    rw [snd_mem_snapshotMap guild.presences now pr hpr,
      snd_mem_snapshotMap guild.presences now qr hqr]
  · intro q pr hpr qr hqr
    rw [snd_mem_snapshotMap guild.presences now pr hpr,
      snd_mem_snapshotMap guild.presences now qr hqr]

/-- Witness for the single-capture-time theorem at a concrete guild. -/
theorem snapshot_single_capture_time_witness :
    sampleCache 0 = some sampleGuild
    ∧ ready [] [0] sampleCache 5 = Except.ok [(1, 5)]
    ∧ ((∀ pr ∈ ([(1, 5)] : Tracker), pr.2 = 5)
      ∧ (∀ pr ∈ ([(1, 5)] : Tracker), ∀ qr ∈ ([(1, 5)] : Tracker), pr.2 = qr.2)
      ∧ (∀ q : Instant, ∀ pr ∈ ([(1, 5)] : Tracker), ∀ qr ∈ ([(1, 5)] : Tracker),
          q - pr.2 = q - qr.2)) :=
  ⟨rfl, rfl, snapshot_single_capture_time [] [(1, 5)] 0 [] sampleCache sampleGuild 5 rfl rfl⟩

/-- C10: a non-empty guild list whose first guild misses the cache leaves
the tracker exactly as it was: no new epoch begins and every tracked entity
keeps its timestamp. -/
theorem ready_uncached_guild_preserves_tracker (t : Tracker) (g : GuildId)
    (gs : List GuildId) (cache : GuildId → Option GuildData) (now : Instant)
    (hc : cache g = none) :
    ready t (g :: gs) cache now = Except.ok t
    ∧ ∀ id ts, trackerGet t id = some ts →
        ∃ t2, ready t (g :: gs) cache now = Except.ok t2 ∧ trackerGet t2 id = some ts := by
  have h : ready t (g :: gs) cache now = Except.ok t := by
    simp [ready, hc]
  exact ⟨h, fun id ts hts => ⟨t, h, hts⟩⟩

/-- Witness for the cache-miss frame theorem at a concrete tracker. -/
theorem ready_uncached_guild_preserves_tracker_witness :
    (fun _ : GuildId => (none : Option GuildData)) 1 = none
    ∧ (ready [(4, 2)] [1] (fun _ => none) 9 = Except.ok [(4, 2)]
      ∧ ∀ id ts, trackerGet [(4, 2)] id = some ts →
          ∃ t2, ready [(4, 2)] [1] (fun _ => none) 9 = Except.ok t2
            ∧ trackerGet t2 id = some ts) :=
  ⟨rfl, ready_uncached_guild_preserves_tracker [(4, 2)] 1 [] (fun _ => none) 9 rfl⟩

lemma whosonlineGo_error_of_lookup_failure (gid : GuildId)
    (member : GuildId → UserId → Except String String) (now : Instant) (t : Tracker) :
    ∀ reply : String,
      (∃ pr ∈ t, ∃ e, member gid pr.1 = Except.error e) →
      ∃ err, whosonlineGo (some gid) member now t reply = Except.error err := by
  induction t with
  | nil =>
    intro reply h
    rcases h with ⟨pr, hpr, _⟩
    cases hpr
  | cons p rest ih =>
    intro reply h
    rcases p with ⟨userid, instant⟩
    cases hm : member gid userid with
    | error e =>
      exact ⟨e, by simp [whosonlineGo, hm]⟩
    | ok name =>
      rcases h with ⟨pr, hpr, e, he⟩
      rcases List.mem_cons.mp hpr with heq | hmem
      · subst heq
        simp [hm] at he
      · rcases ih (reply ++ name ++ " has been connected for "
            ++ formatDuration (now - instant) ++ "\n") ⟨pr, hmem, e, he⟩ with ⟨err, herr⟩
        exact ⟨err, by simp [whosonlineGo, hm, herr]⟩

/-- C6 amended: with at least one tracked entity and no guild id on the
message, and likewise when the directory lookup fails for some tracked
entity, the whole whosonline invocation fails with an error and no reply
text is sent (there is no partial-success mode); with an empty tracker the
guild-id check inside the loop is never reached. -/
theorem whosonline_fails_on_no_context_or_lookup_failure
    (member : GuildId → UserId → Except String String) (now : Instant) (t : Tracker) :
    (t ≠ [] → ∃ err, whosonline none member now t = Except.error err)
    ∧ (∀ gid, (∃ pr ∈ t, ∃ e, member gid pr.1 = Except.error e) →
        ∃ err, whosonline (some gid) member now t = Except.error err) := by
  constructor
  · intro hne
    cases t with
    | nil => exact absurd rfl hne
    | cons p rest =>
      rcases p with ⟨u, i⟩
      exact ⟨"Must be used in guild", rfl⟩
  · intro gid h
    exact whosonlineGo_error_of_lookup_failure gid member now t _ h

/-- Witness at a concrete one-entry tracker: no guild id fails the query,
and so does a failing directory lookup. -/
theorem whosonline_fails_on_no_context_or_lookup_failure_witness :
    (∃ err, whosonline none (fun _ _ => Except.error "gone") 0 [(1, 0)]
      = Except.error err)
    ∧ (∃ err, whosonline (some 7) (fun _ _ => Except.error "gone") 0 [(1, 0)]
      = Except.error err) :=
  ⟨(whosonline_fails_on_no_context_or_lookup_failure
      (fun _ _ => Except.error "gone") 0 [(1, 0)]).1 (by simp),
    (whosonline_fails_on_no_context_or_lookup_failure
      (fun _ _ => Except.error "gone") 0 [(1, 0)]).2 7 ⟨(1, 0), by simp, "gone", rfl⟩⟩

/-- C6 counterexample: invoked outside any guild context but with an empty
tracker, the query does not fail: the per-entry guild check is never
reached, and the header-only reply is sent. -/
theorem whosonline_no_context_empty_tracker_succeeds :
    whosonline none (fun _ _ => Except.error "gone") 0 []
      = Except.ok "the following users are online:\n" := rfl

/-- C7: the elapsed duration of s whole seconds is rendered with
hours = s / 3600, minutes = (s / 60) % 60, seconds = s % 60; an elapsed
time of 3661 seconds renders as "1h 1m 1s", and a query 3661 seconds after
an entity came online reports exactly that. -/
theorem roster_duration_formatting :
    (∀ s : Nat, formatDuration s
      = toString (s / 3600) ++ "h " ++ toString ((s / 60) % 60) ++ "m "
          ++ toString (s % 60) ++ "s")
    ∧ formatDuration 3661 = "1h 1m 1s"
    ∧ (∀ (gid : GuildId) (name : String) (t0 : Instant),
        whosonline (some gid) (fun _ _ => Except.ok name) (t0 + 3661) [(0, t0)]
          = Except.ok ("the following users are online:\n" ++ name
              ++ " has been connected for " ++ "1h 1m 1s" ++ "\n")) := by
  refine ⟨fun s => ?_, by decide, fun gid name t0 => ?_⟩
  · simp only [formatDuration]
    rw [Nat.div_div_eq_div_mul]
  · have h1 : t0 + 3661 - t0 = 3661 := by simp
    simp only [whosonline, whosonlineGo, h1]
    rfl

/-- C8 amended: the whosonline command performs its network calls while
holding the store's write lock, not outside it: no awaited network call
of any invocation occurs with the lock released, and whenever a guild
context is supplied some network call (the first member lookup, or for an
empty tracker the reply send) occurs while the lock is held. -/
theorem whosonline_network_calls_under_lock :
    (∀ (gid? : Option GuildId) (member : GuildId → UserId → Except String String)
        (t : Tracker), netWhileUnlocked (whosonlineTrace gid? member t) = false)
    ∧ (∀ (gid : GuildId) (member : GuildId → UserId → Except String String)
        (t : Tracker), netWhileLocked (whosonlineTrace (some gid) member t) = true) := by
  constructor
  · intro gid? member t
    show netWhileUnlockedFrom true (whosonlineLoopTrace gid? member t) = false
    induction t with
    | nil => rfl
    | cons p rest ih =>
      rcases p with ⟨u, i⟩
      cases gid? with
      | none => rfl
      | some gid =>
        cases hm : member gid u with
        | error e => simp [whosonlineLoopTrace, hm, netWhileUnlockedFrom]
        | ok name => simp [whosonlineLoopTrace, hm, netWhileUnlockedFrom, ih]
  · intro gid member t
    show netWhileLockedFrom true (whosonlineLoopTrace (some gid) member t) = true
    cases t with
    | nil => rfl
    | cons p rest =>
      rcases p with ⟨u, i⟩
      cases hm : member gid u with
      | error e => simp [whosonlineLoopTrace, hm, netWhileLockedFrom, Action.isNetworkCall]
      | ok name => simp [whosonlineLoopTrace, hm, netWhileLockedFrom, Action.isNetworkCall]

/-- C8 counterexample: at a concrete invocation with one tracked entity and
a guild context, the member lookup network call occurs while the store lock
is held, refuting that the query performs its lookups outside the lock. -/
theorem whosonline_network_call_under_lock_example :
    netWhileLocked
      (whosonlineTrace (some 0) (fun _ _ => Except.ok "alice") [(1, 0)]) = true := rfl

end InterludesBot
